import Mathlib

/-!
# Verification of the decoder dispatch layer of `tokenizers`

This file embeds `src/tokenizers/src/decoders/mod.rs`: the `DecoderWrapper`
untagged enum, its `Decoder` (dispatch) implementation, the `impl_enum_from`
lift conversions, and its serde (de)serialization contract.

The concrete strategy types (`BPEDecoder`, `ByteLevel`, `WordPiece`,
`Metaspace`, `CTC`, `Sequence`, `Replace`, `Fuse`, `Strip`, `ByteFallback`)
live in modules not present in the source slice; where a claim depends on
them they are modelled from the spec, as noted in the doc comments.
-/

namespace Tokenizers

/-- A JSON value, the wire format for decoder configuration objects.
Object fields are an ordered association list, as serde sees them. -/
inductive Json where
  | null : Json
  | bool (b : Bool) : Json
  | num (n : Int) : Json
  | str (s : String) : Json
  | arr (elems : List Json) : Json
  | obj (fields : List (String × Json)) : Json

/-- Modelled from the spec: the `BPEDecoder` strategy's configuration schema
is external to the slice and opaque to this core beyond its discriminant
`"BPE"`; we model it as the raw field list of its configuration object. -/
structure BPEDecoder where
  fields : List (String × Json)

/-- Modelled from the spec: the `ByteLevel` strategy's configuration schema is
external and opaque beyond its discriminant `"ByteLevel"`. -/
structure ByteLevel where
  fields : List (String × Json)

/-- Modelled from the spec: the `WordPiece` strategy's configuration schema is
external and opaque beyond its discriminant `"WordPiece"`. -/
structure WordPiece where
  fields : List (String × Json)

/-- Modelled from the spec: the `Metaspace` strategy's configuration, from the
canonical layout given in the spec: `replacement`, `prepend_scheme`, `split`. -/
structure Metaspace where
  replacement : String
  prepend_scheme : String
  split : Bool

/-- Modelled from the spec: the `CTC` strategy's configuration schema is
external and opaque beyond its discriminant `"CTC"`. -/
structure CTC where
  fields : List (String × Json)

/-- Modelled from the spec: the `Replace` strategy's configuration schema is
external and opaque beyond its discriminant `"Replace"`. -/
structure Replace where
  fields : List (String × Json)

/-- Modelled from the spec: the `Fuse` strategy takes no parameters; its
configuration object is the bare discriminant `"Fuse"`. -/
structure Fuse where

/-- Modelled from the spec: the `Strip` strategy's configuration, from the
canonical layout given in the spec: `content`, `start`, `stop`. -/
structure Strip where
  content : String
  start : Nat
  stop : Nat

/-- Modelled from the spec: the `ByteFallback` strategy takes no parameters;
its configuration object is the bare discriminant `"ByteFallback"`. -/
structure ByteFallback where

mutual

/-- The `DecoderWrapper` untagged enum of `decoders/mod.rs`, one case per
concrete strategy, in declaration order. -/
inductive DecoderWrapper where
  | BPE (d : BPEDecoder) : DecoderWrapper
  | ByteLevel (d : ByteLevel) : DecoderWrapper
  | WordPiece (d : WordPiece) : DecoderWrapper
  | Metaspace (d : Metaspace) : DecoderWrapper
  | CTC (d : CTC) : DecoderWrapper
  | Sequence (d : Sequence) : DecoderWrapper
  | Replace (d : Replace) : DecoderWrapper
  | Fuse (d : Fuse) : DecoderWrapper
  | Strip (d : Strip) : DecoderWrapper
  | ByteFallback (d : ByteFallback) : DecoderWrapper

/-- The composite `Sequence` strategy: an ordered list of nested decoders.
Modelled from the spec: the struct itself lives in `decoders/sequence.rs`,
outside the slice; the spec describes it as owning an ordered sequence of
`DecoderWrapper` values. -/
inductive Sequence where
  | mk (decoders : List DecoderWrapper) : Sequence

end

/-- The list of decoders owned by a `Sequence`. -/
def Sequence.decoders : Sequence → List DecoderWrapper
  | .mk ds => ds

/-- Look up a field of a configuration object by name (first occurrence). -/
def lookupField : List (String × Json) → String → Option Json
  | [], _ => none
  | (k, v) :: rest, key => if k = key then some v else lookupField rest key

/-- Does a configuration object carry the discriminant `"type": name`? -/
def typeIs (j : Json) (name : String) : Bool :=
  match j with
  | .obj fields =>
    match lookupField fields "type" with
    | some (.str s) => s = name
    | _ => false
  | _ => false

/-- The field list of a configuration object (`[]` for non-objects). -/
def fieldsOf : Json → List (String × Json)
  | .obj fields => fields
  | _ => []

/-- Modelled from the spec: the `BPEDecoder` case schema (external to the
slice) requires its discriminant `"BPE"`; remaining fields are opaque to this
core and kept as-is. -/
def tryBPE (j : Json) : Option BPEDecoder :=
  if typeIs j "BPE" then some ⟨fieldsOf j⟩ else none

/-- Modelled from the spec: the `ByteLevel` case schema requires its
discriminant `"ByteLevel"`; remaining fields are opaque and kept as-is. -/
def tryByteLevel (j : Json) : Option ByteLevel :=
  if typeIs j "ByteLevel" then some ⟨fieldsOf j⟩ else none

/-- Modelled from the spec: the `WordPiece` case schema requires its
discriminant `"WordPiece"`; remaining fields are opaque and kept as-is. -/
def tryWordPiece (j : Json) : Option WordPiece :=
  if typeIs j "WordPiece" then some ⟨fieldsOf j⟩ else none

/-- Modelled from the spec: the `Metaspace` case schema requires its
discriminant, `replacement` and `prepend_scheme`; `split` is optional with
default `true`; legacy fields such as `add_prefix_space` are tolerated and
ignored (fields absent from older configurations get a defined default). -/
def tryMetaspace (j : Json) : Option Metaspace :=
  if typeIs j "Metaspace" then
    match lookupField (fieldsOf j) "replacement",
          lookupField (fieldsOf j) "prepend_scheme" with
    | some (.str r), some (.str s) =>
      match lookupField (fieldsOf j) "split" with
      | some (.bool b) => some ⟨r, s, b⟩
      | some _ => none
      | none => some ⟨r, s, true⟩
    | _, _ => none
  else none

/-- Modelled from the spec: the `CTC` case schema requires its discriminant
`"CTC"`; remaining fields are opaque and kept as-is. -/
def tryCTC (j : Json) : Option CTC :=
  if typeIs j "CTC" then some ⟨fieldsOf j⟩ else none

/-- Modelled from the spec: the `Replace` case schema requires its
discriminant `"Replace"`; remaining fields are opaque and kept as-is. -/
def tryReplace (j : Json) : Option Replace :=
  if typeIs j "Replace" then some ⟨fieldsOf j⟩ else none

/-- Modelled from the spec: the no-parameter `Fuse` case still requires its
discriminant `"Fuse"` to be present and correctly named. -/
def tryFuse (j : Json) : Option Fuse :=
  if typeIs j "Fuse" then some ⟨⟩ else none

/-- Modelled from the spec: the `Strip` case schema requires its discriminant,
`content` (a string), and numeric `start` and `stop`. -/
def tryStrip (j : Json) : Option Strip :=
  if typeIs j "Strip" then
    match lookupField (fieldsOf j) "content",
          lookupField (fieldsOf j) "start",
          lookupField (fieldsOf j) "stop" with
    | some (.str c), some (.num a), some (.num b) =>
      if 0 ≤ a ∧ 0 ≤ b then some ⟨c, a.toNat, b.toNat⟩ else none
    | _, _, _ => none
  else none

/-- Modelled from the spec: the no-parameter `ByteFallback` case still
requires its discriminant `"ByteFallback"`. -/
def tryByteFallback (j : Json) : Option ByteFallback :=
  if typeIs j "ByteFallback" then some ⟨⟩ else none

mutual

/-- Modelled from the spec: the composite `Sequence` case requires its
discriminant and a `decoders` field holding an array, each element of which
is parsed recursively by the same rules; any element failing means the
`Sequence` case fails. -/
def trySequence (j : Json) : Option Sequence :=
  match j with
  | .obj fields =>
    if typeIs (.obj fields) "Sequence" then scanDecoders fields else none
  | _ => none
termination_by (sizeOf j, 0)

/-- Scan an object's fields for the `decoders` array of a `Sequence` case. -/
def scanDecoders : List (String × Json) → Option Sequence
  | [] => none
  | (k, v) :: rest =>
    if k = "decoders" then
      match v with
      | .arr l => (deserializeItems l).map Sequence.mk
      | _ => none
    else scanDecoders rest
termination_by l => (sizeOf l, 0)

/-- Deserialize each element of a `decoders` array; fail if any element
matches no case. -/
def deserializeItems : List Json → Option (List DecoderWrapper)
  | [] => some []
  | j :: rest =>
    match deserializeCase j with
    | some d => (deserializeItems rest).map (d :: ·)
    | none => none
termination_by l => (sizeOf l, 0)

/-- The structural matching of serde's `#[serde(untagged)]` on
`DecoderWrapper`: attempt each case in declaration order (`BPE`, `ByteLevel`,
`WordPiece`, `Metaspace`, `CTC`, `Sequence`, `Replace`, `Fuse`, `Strip`,
`ByteFallback`) and accept the first case whose schema is satisfied. -/
def deserializeCase (j : Json) : Option DecoderWrapper :=
  match tryBPE j with
  | some d => some (.BPE d)
  | none =>
  match tryByteLevel j with
  | some d => some (.ByteLevel d)
  | none =>
  match tryWordPiece j with
  | some d => some (.WordPiece d)
  | none =>
  match tryMetaspace j with
  | some d => some (.Metaspace d)
  | none =>
  match tryCTC j with
  | some d => some (.CTC d)
  | none =>
  match trySequence j with
  | some d => some (.Sequence d)
  | none =>
  match tryReplace j with
  | some d => some (.Replace d)
  | none =>
  match tryFuse j with
  | some d => some (.Fuse d)
  | none =>
  match tryStrip j with
  | some d => some (.Strip d)
  | none =>
  match tryByteFallback j with
  | some d => some (.ByteFallback d)
  | none => none
termination_by (sizeOf j, 1)

end

/-- The error message produced when no case matches, from
`decoders/mod.rs` (test `decoder_serialization_no_decode`). -/
def noVariantMessage : String :=
  "data did not match any variant of untagged enum DecoderWrapper"

/-- Deserialization of a `DecoderWrapper` from a configuration object:
structural matching over all cases, or the single no-variant error. -/
def deserialize (j : Json) : Except String DecoderWrapper :=
  match deserializeCase j with
  | some w => .ok w
  | none => .error noVariantMessage

/-- Serialization of a `BPEDecoder`: its raw configuration object. -/
def BPEDecoder.serialize (d : BPEDecoder) : Json := .obj d.fields

/-- Serialization of a `ByteLevel`: its raw configuration object. -/
def ByteLevel.serialize (d : ByteLevel) : Json := .obj d.fields

/-- Serialization of a `WordPiece`: its raw configuration object. -/
def WordPiece.serialize (d : WordPiece) : Json := .obj d.fields

/-- Modelled from the spec: the canonical `Metaspace` layout
`type`, `replacement`, `prepend_scheme`, `split`. -/
def Metaspace.serialize (d : Metaspace) : Json :=
  .obj [("type", .str "Metaspace"), ("replacement", .str d.replacement),
        ("prepend_scheme", .str d.prepend_scheme), ("split", .bool d.split)]

/-- Serialization of a `CTC`: its raw configuration object. -/
def CTC.serialize (d : CTC) : Json := .obj d.fields

/-- Serialization of a `Replace`: its raw configuration object. -/
def Replace.serialize (d : Replace) : Json := .obj d.fields

/-- Modelled from the spec: the canonical `Fuse` layout is the bare
discriminant. -/
def Fuse.serialize (_ : Fuse) : Json := .obj [("type", .str "Fuse")]

/-- Modelled from the spec: the canonical `Strip` layout
`type`, `content`, `start`, `stop`. -/
def Strip.serialize (d : Strip) : Json :=
  .obj [("type", .str "Strip"), ("content", .str d.content),
        ("start", .num d.start), ("stop", .num d.stop)]

/-- Modelled from the spec: the canonical `ByteFallback` layout is the bare
discriminant. -/
def ByteFallback.serialize (_ : ByteFallback) : Json := .obj [("type", .str "ByteFallback")]

mutual

/-- Serialization of a `DecoderWrapper`: the enum is `#[serde(untagged)]`, so
each case serializes exactly as its payload does, with no added tag. -/
def DecoderWrapper.serialize : DecoderWrapper → Json
  | .BPE d => d.serialize
  | .ByteLevel d => d.serialize
  | .WordPiece d => d.serialize
  | .Metaspace d => d.serialize
  | .CTC d => d.serialize
  | .Sequence d => Sequence.serialize d
  | .Replace d => d.serialize
  | .Fuse d => d.serialize
  | .Strip d => d.serialize
  | .ByteFallback d => d.serialize

/-- Modelled from the spec: the canonical `Sequence` layout is its
discriminant plus the `decoders` array of nested configurations. -/
def Sequence.serialize : Sequence → Json
  | .mk ds => .obj [("type", .str "Sequence"), ("decoders", .arr (serializeItems ds))]

/-- Serialize each decoder of a `Sequence`'s list in order. -/
def serializeItems : List DecoderWrapper → List Json
  | [] => []
  | d :: rest => DecoderWrapper.serialize d :: serializeItems rest

end

/-- The semantics of the external decoding strategies, which are opaque to
this core: per the spec, each concrete strategy exposes exactly one operation
`decode_chain(tokens) -> Result<tokens, Error>`.  The dispatch layer is
verified for every choice of these semantics. -/
structure LeafDecoders where
  bpe : BPEDecoder → List String → Except String (List String)
  byteLevel : ByteLevel → List String → Except String (List String)
  wordPiece : WordPiece → List String → Except String (List String)
  metaspace : Metaspace → List String → Except String (List String)
  ctc : CTC → List String → Except String (List String)
  replace : Replace → List String → Except String (List String)
  fuse : Fuse → List String → Except String (List String)
  strip : Strip → List String → Except String (List String)
  byteFallback : ByteFallback → List String → Except String (List String)

mutual

/-- `impl Decoder for DecoderWrapper`: `decode_chain` forwards the call to
the held strategy's own `decode_chain`, one arm per case, verbatim from
`decoders/mod.rs`. -/
def DecoderWrapper.decode_chain (L : LeafDecoders) :
    DecoderWrapper → List String → Except String (List String)
  | .BPE bpe, tokens => L.bpe bpe tokens
  | .ByteLevel bl, tokens => L.byteLevel bl tokens
  | .Metaspace ms, tokens => L.metaspace ms tokens
  | .WordPiece wp, tokens => L.wordPiece wp tokens
  | .CTC ctc, tokens => L.ctc ctc tokens
  | .Sequence seq, tokens => Sequence.decode_chain L seq tokens
  | .Replace seq, tokens => L.replace seq tokens
  | .ByteFallback bf, tokens => L.byteFallback bf tokens
  | .Strip bf, tokens => L.strip bf tokens
  | .Fuse bf, tokens => L.fuse bf tokens
termination_by w => (sizeOf w, 1)

/-- Modelled from the spec: the composite case invokes each contained
decoder's `decode_chain` in declaration order, piping the output of step i
into step i+1; an empty list returns the input unchanged; the first failing
step aborts the whole call with its error. -/
def Sequence.decode_chain (L : LeafDecoders) :
    Sequence → List String → Except String (List String)
  | .mk ds, tokens => chainItems L ds tokens
termination_by s => (sizeOf s, 0)

/-- Apply each decoder of a list in order, threading the token sequence. -/
def chainItems (L : LeafDecoders) :
    List DecoderWrapper → List String → Except String (List String)
  | [], tokens => .ok tokens
  | d :: rest, tokens =>
    match DecoderWrapper.decode_chain L d tokens with
    | .ok mid => chainItems L rest mid
    | .error e => .error e
termination_by ds => (sizeOf ds, 0)

end

/-- `impl_enum_from!(BPEDecoder, DecoderWrapper, BPE)`: the infallible lift
conversion `From<BPEDecoder> for DecoderWrapper`. -/
def BPEDecoder.toWrapper (d : BPEDecoder) : DecoderWrapper := .BPE d

/-- `impl_enum_from!(ByteLevel, DecoderWrapper, ByteLevel)`. -/
def ByteLevel.toWrapper (d : ByteLevel) : DecoderWrapper := .ByteLevel d

/-- `impl_enum_from!(ByteFallback, DecoderWrapper, ByteFallback)`. -/
def ByteFallback.toWrapper (d : ByteFallback) : DecoderWrapper := .ByteFallback d

/-- `impl_enum_from!(Fuse, DecoderWrapper, Fuse)`. -/
def Fuse.toWrapper (d : Fuse) : DecoderWrapper := .Fuse d

/-- `impl_enum_from!(Strip, DecoderWrapper, Strip)`. -/
def Strip.toWrapper (d : Strip) : DecoderWrapper := .Strip d

/-- `impl_enum_from!(Metaspace, DecoderWrapper, Metaspace)`. -/
def Metaspace.toWrapper (d : Metaspace) : DecoderWrapper := .Metaspace d

/-- `impl_enum_from!(WordPiece, DecoderWrapper, WordPiece)`. -/
def WordPiece.toWrapper (d : WordPiece) : DecoderWrapper := .WordPiece d

/-- `impl_enum_from!(CTC, DecoderWrapper, CTC)`. -/
def CTC.toWrapper (d : CTC) : DecoderWrapper := .CTC d

/-- `impl_enum_from!(Sequence, DecoderWrapper, Sequence)`. -/
def Sequence.toWrapper (d : Sequence) : DecoderWrapper := .Sequence d

/-- `impl_enum_from!(Replace, DecoderWrapper, Replace)`. -/
def Replace.toWrapper (d : Replace) : DecoderWrapper := .Replace d

/-- The case matchers of the untagged enum, in the fixed declaration order of
`DecoderWrapper`, each wrapping its payload into the corresponding case. -/
def decoderCases : List (Json → Option DecoderWrapper) :=
  [fun j => (tryBPE j).map .BPE,
   fun j => (tryByteLevel j).map .ByteLevel,
   fun j => (tryWordPiece j).map .WordPiece,
   fun j => (tryMetaspace j).map .Metaspace,
   fun j => (tryCTC j).map .CTC,
   fun j => (trySequence j).map .Sequence,
   fun j => (tryReplace j).map .Replace,
   fun j => (tryFuse j).map .Fuse,
   fun j => (tryStrip j).map .Strip,
   fun j => (tryByteFallback j).map .ByteFallback]

/-- Scan a list of case matchers in order and accept the first success. -/
def firstMatch : List (Json → Option DecoderWrapper) → Json → Option DecoderWrapper
  | [], _ => none
  | c :: rest, j =>
    match c j with
    | some w => some w
    | none => firstMatch rest j

/-- The spec's own description of deserialization, stated independently of
the embedded code: attempt each case in the fixed declaration order and
accept the first case whose schema is satisfiable from the object; if none
is, fail with the single no-variant error. -/
def specDeserialize (j : Json) : Except String DecoderWrapper :=
  match firstMatch decoderCases j with
  | some w => .ok w
  | none => .error noVariantMessage

/-- The case matcher named by a `"type"` discriminant value, wrapped into the
enum; an unrecognized name matches nothing. -/
def caseNamed (t : String) : Json → Option DecoderWrapper :=
  if t = "BPE" then fun j => (tryBPE j).map .BPE
  else if t = "ByteLevel" then fun j => (tryByteLevel j).map .ByteLevel
  else if t = "WordPiece" then fun j => (tryWordPiece j).map .WordPiece
  else if t = "Metaspace" then fun j => (tryMetaspace j).map .Metaspace
  else if t = "CTC" then fun j => (tryCTC j).map .CTC
  else if t = "Sequence" then fun j => (trySequence j).map .Sequence
  else if t = "Replace" then fun j => (tryReplace j).map .Replace
  else if t = "Fuse" then fun j => (tryFuse j).map .Fuse
  else if t = "Strip" then fun j => (tryStrip j).map .Strip
  else if t = "ByteFallback" then fun j => (tryByteFallback j).map .ByteFallback
  else fun _ => none

mutual

/-- Well-formedness of a decoder value: each raw (opaque-schema) payload
carries its own discriminant in its kept field list, recursively.  Values
produced by deserialization satisfy this; it characterizes the values whose
serialization is a canonical-form configuration object. -/
def wellFormed : DecoderWrapper → Bool
  | .BPE d => typeIs (.obj d.fields) "BPE"
  | .ByteLevel d => typeIs (.obj d.fields) "ByteLevel"
  | .WordPiece d => typeIs (.obj d.fields) "WordPiece"
  | .Metaspace _ => true
  | .CTC d => typeIs (.obj d.fields) "CTC"
  | .Sequence s => wellFormedSeq s
  | .Replace d => typeIs (.obj d.fields) "Replace"
  | .Fuse _ => true
  | .Strip _ => true
  | .ByteFallback _ => true

/-- Well-formedness of a `Sequence`: all nested decoders are well-formed. -/
def wellFormedSeq : Sequence → Bool
  | .mk ds => wellFormedItems ds

/-- Well-formedness of a list of decoders. -/
def wellFormedItems : List DecoderWrapper → Bool
  | [] => true
  | d :: rest => wellFormed d && wellFormedItems rest

end

/-- A `Metaspace` configuration object in the known legacy schema: carries
the legacy `add_prefix_space` flag and no `split` field. -/
def legacyMetaspaceJson (r s : String) : Json :=
  .obj [("type", .str "Metaspace"), ("replacement", .str r),
        ("add_prefix_space", .bool true), ("prepend_scheme", .str s)]

/-- The current canonical `Metaspace` configuration object with `split`
defaulted to `true`. -/
def canonicalMetaspaceJson (r s : String) : Json :=
  .obj [("type", .str "Metaspace"), ("replacement", .str r),
        ("prepend_scheme", .str s), ("split", .bool true)]

/-- A choice of external strategy semantics in which every strategy returns
its input unchanged, except `BPE`, which always fails with `"bpe failed"`;
used to exhibit error propagation through a composite chain. -/
def failingBPESemantics : LeafDecoders where
  bpe := fun _ _ => .error "bpe failed"
  byteLevel := fun _ tokens => .ok tokens
  wordPiece := fun _ tokens => .ok tokens
  metaspace := fun _ tokens => .ok tokens
  ctc := fun _ tokens => .ok tokens
  replace := fun _ tokens => .ok tokens
  fuse := fun _ tokens => .ok tokens
  strip := fun _ tokens => .ok tokens
  byteFallback := fun _ tokens => .ok tokens

/-! ## Helper lemmas -/

theorem typeIs_false_of_ne {j : Json} {a b : String}
    (ha : typeIs j a = true) (hne : b ≠ a) : typeIs j b = false := by
  cases j <;> simp [typeIs] at ha ⊢
  rename_i fields
  rcases hv : lookupField fields "type" with _ | v <;> simp [hv] at ha ⊢
  cases v <;> simp at ha ⊢
  subst ha
  exact fun h2 => hne h2.symm

theorem tryBPE_none {j : Json} (h : typeIs j "BPE" = false) :
    tryBPE j = none := by
  simp [tryBPE, h]

theorem tryByteLevel_none {j : Json} (h : typeIs j "ByteLevel" = false) :
    tryByteLevel j = none := by
  simp [tryByteLevel, h]

theorem tryWordPiece_none {j : Json} (h : typeIs j "WordPiece" = false) :
    tryWordPiece j = none := by
  simp [tryWordPiece, h]

theorem tryMetaspace_none {j : Json} (h : typeIs j "Metaspace" = false) :
    tryMetaspace j = none := by
  simp [tryMetaspace, h]

theorem tryCTC_none {j : Json} (h : typeIs j "CTC" = false) :
    tryCTC j = none := by
  simp [tryCTC, h]

theorem trySequence_none {j : Json} (h : typeIs j "Sequence" = false) :
    trySequence j = none := by
  cases j <;> rw [trySequence] <;> simp_all

theorem tryReplace_none {j : Json} (h : typeIs j "Replace" = false) :
    tryReplace j = none := by
  simp [tryReplace, h]

theorem tryFuse_none {j : Json} (h : typeIs j "Fuse" = false) :
    tryFuse j = none := by
  simp [tryFuse, h]

theorem tryStrip_none {j : Json} (h : typeIs j "Strip" = false) :
    tryStrip j = none := by
  simp [tryStrip, h]

theorem tryByteFallback_none {j : Json} (h : typeIs j "ByteFallback" = false) :
    tryByteFallback j = none := by
  simp [tryByteFallback, h]

theorem deserializeCase_eq_firstMatch (j : Json) :
    deserializeCase j = firstMatch decoderCases j := by
  rw [deserializeCase]
  simp only [decoderCases, firstMatch]
  cases tryBPE j with
  | some d => rfl
  | none =>
  cases tryByteLevel j with
  | some d => rfl
  | none =>
  cases tryWordPiece j with
  | some d => rfl
  | none =>
  cases tryMetaspace j with
  | some d => rfl
  | none =>
  cases tryCTC j with
  | some d => rfl
  | none =>
  cases trySequence j with
  | some d => rfl
  | none =>
  cases tryReplace j with
  | some d => rfl
  | none =>
  cases tryFuse j with
  | some d => rfl
  | none =>
  cases tryStrip j with
  | some d => rfl
  | none =>
  cases tryByteFallback j with
  | some d => rfl
  | none => rfl

theorem deserialize_eq_specDeserialize (j : Json) :
    deserialize j = specDeserialize j := by
  unfold deserialize specDeserialize
  rw [deserializeCase_eq_firstMatch]

theorem typeIs_false_of_no_type {j : Json} {name : String}
    (h : lookupField (fieldsOf j) "type" = none) : typeIs j name = false := by
  cases j <;> simp [typeIs, fieldsOf] at h ⊢
  simp [h]

theorem deserializeCase_typeIs_BPE {j : Json} (h : typeIs j "BPE" = true) :
    deserializeCase j = (tryBPE j).map .BPE := by
  rw [deserializeCase_eq_firstMatch]
  simp only [decoderCases, firstMatch, tryBPE, h, if_true]
  rfl

theorem deserializeCase_typeIs_ByteLevel {j : Json}
    (h : typeIs j "ByteLevel" = true) :
    deserializeCase j = (tryByteLevel j).map .ByteLevel := by
  have h1 := tryBPE_none (typeIs_false_of_ne h (by decide))
  rw [deserializeCase_eq_firstMatch]
  simp only [decoderCases, firstMatch, h1, tryByteLevel, h, if_true, Option.map_some]
  rfl

theorem deserializeCase_typeIs_WordPiece {j : Json}
    (h : typeIs j "WordPiece" = true) :
    deserializeCase j = (tryWordPiece j).map .WordPiece := by
  have h1 := tryBPE_none (typeIs_false_of_ne h (by decide))
  have h2 := tryByteLevel_none (typeIs_false_of_ne h (by decide))
  rw [deserializeCase_eq_firstMatch]
  simp only [decoderCases, firstMatch, h1, h2, tryWordPiece, h, if_true, Option.map_some]
  rfl

theorem deserializeCase_typeIs_Metaspace {j : Json}
    (h : typeIs j "Metaspace" = true) :
    deserializeCase j = (tryMetaspace j).map .Metaspace := by
  have h1 := tryBPE_none (typeIs_false_of_ne h (by decide))
  have h2 := tryByteLevel_none (typeIs_false_of_ne h (by decide))
  have h3 := tryWordPiece_none (typeIs_false_of_ne h (by decide))
  have h5 := tryCTC_none (typeIs_false_of_ne h (by decide))
  have h6 := trySequence_none (typeIs_false_of_ne h (by decide))
  have h7 := tryReplace_none (typeIs_false_of_ne h (by decide))
  have h8 := tryFuse_none (typeIs_false_of_ne h (by decide))
  have h9 := tryStrip_none (typeIs_false_of_ne h (by decide))
  have h10 := tryByteFallback_none (typeIs_false_of_ne h (by decide))
  rw [deserializeCase_eq_firstMatch]
  simp only [decoderCases, firstMatch, h1, h2, h3, h5, h6, h7, h8, h9, h10]
  cases tryMetaspace j <;> simp

theorem deserializeCase_typeIs_CTC {j : Json} (h : typeIs j "CTC" = true) :
    deserializeCase j = (tryCTC j).map .CTC := by
  have h1 := tryBPE_none (typeIs_false_of_ne h (by decide))
  have h2 := tryByteLevel_none (typeIs_false_of_ne h (by decide))
  have h3 := tryWordPiece_none (typeIs_false_of_ne h (by decide))
  have h4 := tryMetaspace_none (typeIs_false_of_ne h (by decide))
  rw [deserializeCase_eq_firstMatch]
  simp only [decoderCases, firstMatch, h1, h2, h3, h4, tryCTC, h, if_true, Option.map_some]
  rfl

theorem deserializeCase_typeIs_Sequence {j : Json}
    (h : typeIs j "Sequence" = true) :
    deserializeCase j = (trySequence j).map .Sequence := by
  have h1 := tryBPE_none (typeIs_false_of_ne h (by decide))
  have h2 := tryByteLevel_none (typeIs_false_of_ne h (by decide))
  have h3 := tryWordPiece_none (typeIs_false_of_ne h (by decide))
  have h4 := tryMetaspace_none (typeIs_false_of_ne h (by decide))
  have h5 := tryCTC_none (typeIs_false_of_ne h (by decide))
  have h7 := tryReplace_none (typeIs_false_of_ne h (by decide))
  have h8 := tryFuse_none (typeIs_false_of_ne h (by decide))
  have h9 := tryStrip_none (typeIs_false_of_ne h (by decide))
  have h10 := tryByteFallback_none (typeIs_false_of_ne h (by decide))
  rw [deserializeCase_eq_firstMatch]
  simp only [decoderCases, firstMatch, h1, h2, h3, h4, h5, h7, h8, h9, h10]
  cases trySequence j <;> simp

theorem deserializeCase_typeIs_Replace {j : Json}
    (h : typeIs j "Replace" = true) :
    deserializeCase j = (tryReplace j).map .Replace := by
  have h1 := tryBPE_none (typeIs_false_of_ne h (by decide))
  have h2 := tryByteLevel_none (typeIs_false_of_ne h (by decide))
  have h3 := tryWordPiece_none (typeIs_false_of_ne h (by decide))
  have h4 := tryMetaspace_none (typeIs_false_of_ne h (by decide))
  have h5 := tryCTC_none (typeIs_false_of_ne h (by decide))
  have h6 := trySequence_none (typeIs_false_of_ne h (by decide))
  rw [deserializeCase_eq_firstMatch]
  simp only [decoderCases, firstMatch, h1, h2, h3, h4, h5, h6, tryReplace, h,
    if_true, Option.map_some]
  rfl

theorem deserializeCase_typeIs_Fuse {j : Json} (h : typeIs j "Fuse" = true) :
    deserializeCase j = (tryFuse j).map .Fuse := by
  have h1 := tryBPE_none (typeIs_false_of_ne h (by decide))
  have h2 := tryByteLevel_none (typeIs_false_of_ne h (by decide))
  have h3 := tryWordPiece_none (typeIs_false_of_ne h (by decide))
  have h4 := tryMetaspace_none (typeIs_false_of_ne h (by decide))
  have h5 := tryCTC_none (typeIs_false_of_ne h (by decide))
  have h6 := trySequence_none (typeIs_false_of_ne h (by decide))
  have h7 := tryReplace_none (typeIs_false_of_ne h (by decide))
  rw [deserializeCase_eq_firstMatch]
  simp only [decoderCases, firstMatch, h1, h2, h3, h4, h5, h6, h7, tryFuse, h,
    if_true, Option.map_some]
  rfl

theorem deserializeCase_typeIs_Strip {j : Json} (h : typeIs j "Strip" = true) :
    deserializeCase j = (tryStrip j).map .Strip := by
  have h1 := tryBPE_none (typeIs_false_of_ne h (by decide))
  have h2 := tryByteLevel_none (typeIs_false_of_ne h (by decide))
  have h3 := tryWordPiece_none (typeIs_false_of_ne h (by decide))
  have h4 := tryMetaspace_none (typeIs_false_of_ne h (by decide))
  have h5 := tryCTC_none (typeIs_false_of_ne h (by decide))
  have h6 := trySequence_none (typeIs_false_of_ne h (by decide))
  have h7 := tryReplace_none (typeIs_false_of_ne h (by decide))
  have h8 := tryFuse_none (typeIs_false_of_ne h (by decide))
  have h10 := tryByteFallback_none (typeIs_false_of_ne h (by decide))
  rw [deserializeCase_eq_firstMatch]
  simp only [decoderCases, firstMatch, h1, h2, h3, h4, h5, h6, h7, h8, h10]
  cases tryStrip j <;> simp

theorem deserializeCase_typeIs_ByteFallback {j : Json}
    (h : typeIs j "ByteFallback" = true) :
    deserializeCase j = (tryByteFallback j).map .ByteFallback := by
  have h1 := tryBPE_none (typeIs_false_of_ne h (by decide))
  have h2 := tryByteLevel_none (typeIs_false_of_ne h (by decide))
  have h3 := tryWordPiece_none (typeIs_false_of_ne h (by decide))
  have h4 := tryMetaspace_none (typeIs_false_of_ne h (by decide))
  have h5 := tryCTC_none (typeIs_false_of_ne h (by decide))
  have h6 := trySequence_none (typeIs_false_of_ne h (by decide))
  have h7 := tryReplace_none (typeIs_false_of_ne h (by decide))
  have h8 := tryFuse_none (typeIs_false_of_ne h (by decide))
  have h9 := tryStrip_none (typeIs_false_of_ne h (by decide))
  rw [deserializeCase_eq_firstMatch]
  simp only [decoderCases, firstMatch, h1, h2, h3, h4, h5, h6, h7, h8, h9,
    tryByteFallback, h, if_true, Option.map_some]
  rfl

theorem deserializeCase_none_of_no_type {j : Json}
    (h : lookupField (fieldsOf j) "type" = none) : deserializeCase j = none := by
  rw [deserializeCase_eq_firstMatch]
  simp only [decoderCases, firstMatch,
    tryBPE_none (typeIs_false_of_no_type h),
    tryByteLevel_none (typeIs_false_of_no_type h),
    tryWordPiece_none (typeIs_false_of_no_type h),
    tryMetaspace_none (typeIs_false_of_no_type h),
    tryCTC_none (typeIs_false_of_no_type h),
    trySequence_none (typeIs_false_of_no_type h),
    tryReplace_none (typeIs_false_of_no_type h),
    tryFuse_none (typeIs_false_of_no_type h),
    tryStrip_none (typeIs_false_of_no_type h),
    tryByteFallback_none (typeIs_false_of_no_type h), Option.map_none]
  rfl

theorem trySequence_obj_pos {fields : List (String × Json)}
    (h : typeIs (.obj fields) "Sequence" = true) :
    trySequence (.obj fields) = scanDecoders fields := by
  rw [trySequence]
  simp [h]

theorem scanDecoders_nil : scanDecoders [] = none := by
  rw [scanDecoders]

theorem scanDecoders_cons_miss {k : String} {v : Json}
    {rest : List (String × Json)} (h : k ≠ "decoders") :
    scanDecoders ((k, v) :: rest) = scanDecoders rest := by
  cases v <;> rw [scanDecoders] <;> simp [h]

theorem scanDecoders_cons_arr {l : List Json} {rest : List (String × Json)} :
    scanDecoders (("decoders", .arr l) :: rest) =
      (deserializeItems l).map Sequence.mk := by
  rw [scanDecoders]
  simp

theorem deserializeItems_nil : deserializeItems [] = some [] := by
  rw [deserializeItems]

theorem deserializeItems_cons_ok {j : Json} {d : DecoderWrapper}
    {rest : List Json} (h : deserializeCase j = some d) :
    deserializeItems (j :: rest) = (deserializeItems rest).map (d :: ·) := by
  rw [deserializeItems, h]

theorem deserializeItems_cons_err {j : Json} {rest : List Json}
    (h : deserializeCase j = none) : deserializeItems (j :: rest) = none := by
  rw [deserializeItems, h]

theorem serializeItems_nil : serializeItems [] = [] := by
  rw [serializeItems]

theorem serializeItems_cons {d : DecoderWrapper} {rest : List DecoderWrapper} :
    serializeItems (d :: rest) = DecoderWrapper.serialize d :: serializeItems rest := by
  rw [serializeItems]

theorem serialize_sequence_mk (ds : List DecoderWrapper) :
    DecoderWrapper.serialize (.Sequence (.mk ds)) =
      .obj [("type", .str "Sequence"), ("decoders", .arr (serializeItems ds))] := by
  rw [DecoderWrapper.serialize, Sequence.serialize]

theorem typeIs_metaspace_serialize (d : Metaspace) :
    typeIs d.serialize "Metaspace" = true := by
  simp [Metaspace.serialize, typeIs, lookupField]

theorem tryMetaspace_serialize (d : Metaspace) :
    tryMetaspace d.serialize = some d := by
  simp [Metaspace.serialize, tryMetaspace, typeIs, lookupField, fieldsOf]

theorem typeIs_strip_serialize (d : Strip) :
    typeIs d.serialize "Strip" = true := by
  simp [Strip.serialize, typeIs, lookupField]

theorem tryStrip_serialize (d : Strip) : tryStrip d.serialize = some d := by
  simp [Strip.serialize, tryStrip, typeIs, lookupField, fieldsOf]

theorem typeIs_fuse_serialize (d : Fuse) : typeIs d.serialize "Fuse" = true := by
  simp [Fuse.serialize, typeIs, lookupField]

theorem tryFuse_serialize (d : Fuse) : tryFuse d.serialize = some d := by
  simp [Fuse.serialize, tryFuse, typeIs, lookupField]

theorem typeIs_byteFallback_serialize (d : ByteFallback) :
    typeIs d.serialize "ByteFallback" = true := by
  simp [ByteFallback.serialize, typeIs, lookupField]

theorem tryByteFallback_serialize (d : ByteFallback) :
    tryByteFallback d.serialize = some d := by
  simp [ByteFallback.serialize, tryByteFallback, typeIs, lookupField]

theorem deserializeCase_serialize :
    ∀ (n : Nat) (w : DecoderWrapper), sizeOf w ≤ n → wellFormed w = true →
      deserializeCase (DecoderWrapper.serialize w) = some w := by
  intro n
  induction n with
  | zero =>
    intro w hw _
    exfalso
    cases w <;> simp at hw
  | succ n ih =>
    have hitems : ∀ (l : List DecoderWrapper), sizeOf l ≤ n →
        wellFormedItems l = true →
        deserializeItems (serializeItems l) = some l := by
      intro l
      induction l with
      | nil =>
        intro _ _
        rw [serializeItems_nil, deserializeItems_nil]
      | cons d rest ihl =>
        intro hs hw
        have hd : sizeOf d ≤ n := by simp at hs; omega
        have hrest : sizeOf rest ≤ n := by simp at hs; omega
        rw [wellFormedItems] at hw
        simp only [Bool.and_eq_true] at hw
        rw [serializeItems_cons, deserializeItems_cons_ok (ih d hd hw.1),
          ihl hrest hw.2]
        rfl
    intro w hsize hwf
    cases w with
    | BPE d =>
      have h : typeIs (Json.obj d.fields) "BPE" = true := by
        rw [wellFormed] at hwf
        exact hwf
      have hser : DecoderWrapper.serialize (.BPE d) = .obj d.fields := by
        rw [DecoderWrapper.serialize, BPEDecoder.serialize]
      rw [hser, deserializeCase_typeIs_BPE h]
      simp [tryBPE, h, fieldsOf]
    | ByteLevel d =>
      have h : typeIs (Json.obj d.fields) "ByteLevel" = true := by
        rw [wellFormed] at hwf
        exact hwf
      have hser : DecoderWrapper.serialize (.ByteLevel d) = .obj d.fields := by
        rw [DecoderWrapper.serialize, ByteLevel.serialize]
      rw [hser, deserializeCase_typeIs_ByteLevel h]
      simp [tryByteLevel, h, fieldsOf]
    | WordPiece d =>
      have h : typeIs (Json.obj d.fields) "WordPiece" = true := by
        rw [wellFormed] at hwf
        exact hwf
      have hser : DecoderWrapper.serialize (.WordPiece d) = .obj d.fields := by
        rw [DecoderWrapper.serialize, WordPiece.serialize]
      rw [hser, deserializeCase_typeIs_WordPiece h]
      simp [tryWordPiece, h, fieldsOf]
    | Metaspace d =>
      have hser : DecoderWrapper.serialize (.Metaspace d) = d.serialize := by
        rw [DecoderWrapper.serialize]
      rw [hser, deserializeCase_typeIs_Metaspace (typeIs_metaspace_serialize d),
        tryMetaspace_serialize]
      rfl
    | CTC d =>
      have h : typeIs (Json.obj d.fields) "CTC" = true := by
        rw [wellFormed] at hwf
        exact hwf
      have hser : DecoderWrapper.serialize (.CTC d) = .obj d.fields := by
        rw [DecoderWrapper.serialize, CTC.serialize]
      rw [hser, deserializeCase_typeIs_CTC h]
      simp [tryCTC, h, fieldsOf]
    | Sequence s =>
      cases s with
      | mk ds =>
        have hds : sizeOf ds ≤ n := by simp at hsize; omega
        have hw : wellFormedItems ds = true := by
          rw [wellFormed, wellFormedSeq] at hwf
          exact hwf
        have h : typeIs (Json.obj [("type", .str "Sequence"),
            ("decoders", .arr (serializeItems ds))]) "Sequence" = true := by
          simp [typeIs, lookupField]
        rw [serialize_sequence_mk, deserializeCase_typeIs_Sequence h,
          trySequence_obj_pos h, scanDecoders_cons_miss (by decide),
          scanDecoders_cons_arr, hitems ds hds hw]
        rfl
    | Replace d =>
      have h : typeIs (Json.obj d.fields) "Replace" = true := by
        rw [wellFormed] at hwf
        exact hwf
      have hser : DecoderWrapper.serialize (.Replace d) = .obj d.fields := by
        rw [DecoderWrapper.serialize, Replace.serialize]
      rw [hser, deserializeCase_typeIs_Replace h]
      simp [tryReplace, h, fieldsOf]
    | Fuse d =>
      have hser : DecoderWrapper.serialize (.Fuse d) = d.serialize := by
        rw [DecoderWrapper.serialize]
      rw [hser, deserializeCase_typeIs_Fuse (typeIs_fuse_serialize d),
        tryFuse_serialize]
      rfl
    | Strip d =>
      have hser : DecoderWrapper.serialize (.Strip d) = d.serialize := by
        rw [DecoderWrapper.serialize]
      rw [hser, deserializeCase_typeIs_Strip (typeIs_strip_serialize d),
        tryStrip_serialize]
      rfl
    | ByteFallback d =>
      have hser : DecoderWrapper.serialize (.ByteFallback d) = d.serialize := by
        rw [DecoderWrapper.serialize]
      rw [hser,
        deserializeCase_typeIs_ByteFallback (typeIs_byteFallback_serialize d),
        tryByteFallback_serialize]
      rfl

theorem deserialize_serialize (w : DecoderWrapper) (h : wellFormed w = true) :
    deserialize (DecoderWrapper.serialize w) = .ok w := by
  unfold deserialize
  rw [deserializeCase_serialize (sizeOf w) w le_rfl h]

theorem firstMatch_append_none {j : Json} {w : DecoderWrapper}
    (pre : List (Json → Option DecoderWrapper))
    (hpre : ∀ c2 ∈ pre, c2 j = none)
    (c : Json → Option DecoderWrapper) (hc : c j = some w)
    (post : List (Json → Option DecoderWrapper)) :
    firstMatch (pre ++ c :: post) j = some w := by
  induction pre with
  | nil =>
    simp only [List.nil_append, firstMatch, hc]
  | cons c2 rest ih =>
    have h2 : c2 j = none := hpre c2 (by simp)
    simp only [List.cons_append, firstMatch, h2]
    exact ih fun c3 h3 => hpre c3 (by simp [h3])

theorem firstMatch_none_of_all {cs : List (Json → Option DecoderWrapper)}
    {j : Json} (h : ∀ c ∈ cs, c j = none) : firstMatch cs j = none := by
  induction cs with
  | nil => rfl
  | cons c rest ih =>
    have hc : c j = none := h c (by simp)
    simp only [firstMatch, hc]
    exact ih fun c2 h2 => h c2 (by simp [h2])

theorem all_none_of_firstMatch_none (cs : List (Json → Option DecoderWrapper))
    (j : Json) : firstMatch cs j = none → ∀ c ∈ cs, c j = none := by
  induction cs with
  | nil =>
    intro _ c hc
    simp at hc
  | cons c rest ih =>
    intro h c2 h2
    rw [firstMatch] at h
    rcases hc : c j with _ | w
    · rw [hc] at h
      cases h2 with
      | head => exact hc
      | tail b hmem => exact ih h c2 hmem
    · rw [hc] at h
      simp at h

theorem chainItems_nil (L : LeafDecoders) (tokens : List String) :
    chainItems L [] tokens = .ok tokens := by
  rw [chainItems]

theorem chainItems_cons (L : LeafDecoders) (d : DecoderWrapper)
    (rest : List DecoderWrapper) (tokens : List String) :
    chainItems L (d :: rest) tokens =
      match DecoderWrapper.decode_chain L d tokens with
      | .ok mid => chainItems L rest mid
      | .error e => .error e := by
  rw [chainItems]

theorem chainItems_eq_foldlM (L : LeafDecoders) (ds : List DecoderWrapper) :
    ∀ tokens, chainItems L ds tokens =
      List.foldlM (fun acc d => DecoderWrapper.decode_chain L d acc) tokens ds := by
  induction ds with
  | nil =>
    intro tokens
    rw [chainItems_nil]
    rfl
  | cons d rest ih =>
    intro tokens
    rw [chainItems_cons]
    cases h : DecoderWrapper.decode_chain L d tokens with
    | ok mid =>
      simp only [List.foldlM, h, ih mid]
      rfl
    | error e =>
      simp only [List.foldlM, h]
      rfl

theorem sequence_decode_chain_eq (L : LeafDecoders) (ds : List DecoderWrapper)
    (tokens : List String) :
    Sequence.decode_chain L (.mk ds) tokens = chainItems L ds tokens := by
  rw [Sequence.decode_chain]

/-! ## Claims -/

/-- C1: Deserialization of a decoder configuration object attempts each case
in the fixed declaration order (BPE, ByteLevel, WordPiece, Metaspace, CTC,
Sequence, Replace, Fuse, Strip, ByteFallback) and accepts the first case
whose schema is satisfiable from the object: `deserialize` agrees everywhere
with the spec-side ordered first-match scan `specDeserialize`, and whenever a
case matcher succeeds while every case before it in the order fails, the
result is exactly that (earliest) case — so an object satisfiable by more
than one case yields the earliest such case. -/
theorem untagged_first_match_c1 (j : Json) :
    deserialize j = specDeserialize j ∧
    ∀ (pre post : List (Json → Option DecoderWrapper))
      (cse : Json → Option DecoderWrapper) (w : DecoderWrapper),
      decoderCases = pre ++ cse :: post →
      (∀ c2 ∈ pre, c2 j = none) → cse j = some w →
      deserialize j = .ok w := by
  constructor
  · exact deserialize_eq_specDeserialize j
  · intro pre post cse w hsplit hpre hc
    unfold deserialize
    rw [deserializeCase_eq_firstMatch, hsplit,
      firstMatch_append_none pre hpre cse hc post]

/-- Witness for C1: the object with discriminant `Fuse` is matched by the
`Fuse` case (position 7) after all seven earlier cases fail, and
deserialization indeed returns the `Fuse` case. -/
theorem untagged_first_match_c1_witness :
    deserialize (.obj [("type", .str "Fuse")]) = .ok (.Fuse ⟨⟩) :=
  (untagged_first_match_c1 (.obj [("type", .str "Fuse")])).2
    (decoderCases.take 7) (decoderCases.drop 8)
    (fun j => (tryFuse j).map .Fuse) (.Fuse ⟨⟩) rfl
    (by
      intro c2 hc2
      simp only [decoderCases, List.take, List.mem_cons, List.not_mem_nil,
        or_false] at hc2
      rcases hc2 with rfl | rfl | rfl | rfl | rfl | rfl | rfl
      · rfl
      · rfl
      · rfl
      · rfl
      · rfl
      · have hts : typeIs (Json.obj [("type", Json.str "Fuse")]) "Sequence" = false := rfl
        show (trySequence _).map _ = none
        rw [trySequence_none hts]
        rfl
      · rfl)
    rfl

/-- C3: An object satisfying no case's schema (for instance one with no
`"type"` field) fails deserialization with the single fixed error message
stating the data "did not match any variant" of the decoder enum; the
message is a constant, so it names no closest case. -/
theorem no_variant_error_c3 (j : Json)
    (h : ∀ c ∈ decoderCases, c j = none) :
    deserialize j =
      .error "data did not match any variant of untagged enum DecoderWrapper" := by
  unfold deserialize
  rw [deserializeCase_eq_firstMatch, firstMatch_none_of_all h]
  rfl

/-- Witness for C3: the typeless object carrying only Metaspace-like fields
(from the `decoder_serialization_no_decode` test) satisfies no case and
yields the no-variant error. -/
theorem no_variant_error_c3_witness :
    deserialize (.obj [("replacement", .str "▁"), ("prepend_scheme", .str "always")]) =
      .error "data did not match any variant of untagged enum DecoderWrapper" :=
  no_variant_error_c3
    (.obj [("replacement", .str "▁"), ("prepend_scheme", .str "always")])
    (by
      intro c hc
      simp only [decoderCases, List.mem_cons, List.not_mem_nil, or_false] at hc
      rcases hc with rfl | rfl | rfl | rfl | rfl | rfl | rfl | rfl | rfl | rfl
      · rfl
      · rfl
      · rfl
      · rfl
      · rfl
      · have hts : typeIs (Json.obj [("replacement", Json.str "▁"),
            ("prepend_scheme", Json.str "always")]) "Sequence" = false := rfl
        show (trySequence _).map _ = none
        rw [trySequence_none hts]
        rfl
      · rfl
      · rfl
      · rfl
      · rfl)

/-- C7: When an object carries a `"type"` discriminant whose named case does
not accept it, deserialization still agrees with the full ordered scan over
all cases, and it fails (with the no-variant error) exactly when every case
in the order fails — the discriminant is advisory, never an authoritative
early-exit filter. -/
theorem advisory_discriminant_c7 (j : Json) (t : String)
    (h1 : lookupField (fieldsOf j) "type" = some (.str t))
    (h2 : caseNamed t j = none) :
    deserialize j = specDeserialize j ∧
    (deserialize j = .error noVariantMessage ↔ ∀ c ∈ decoderCases, c j = none) := by
  refine ⟨deserialize_eq_specDeserialize j, ?_, ?_⟩
  · intro herr
    apply all_none_of_firstMatch_none decoderCases j
    unfold deserialize at herr
    rw [deserializeCase_eq_firstMatch] at herr
    rcases hf : firstMatch decoderCases j with _ | w
    · rfl
    · rw [hf] at herr
      simp at herr
  · intro hall
    unfold deserialize
    rw [deserializeCase_eq_firstMatch, firstMatch_none_of_all hall]

/-- Witness for C7: the object with `"type": "Sequence"` but no `decoders`
field (from the `decoder_serialization_no_decode` test) is rejected by the
`Sequence` case, yet deserialization still agrees with the full scan and
fails only because every case fails. -/
theorem advisory_discriminant_c7_witness :
    deserialize (.obj [("type", .str "Sequence"), ("prepend_scheme", .str "always")]) =
        specDeserialize (.obj [("type", .str "Sequence"), ("prepend_scheme", .str "always")]) ∧
    (deserialize (.obj [("type", .str "Sequence"), ("prepend_scheme", .str "always")]) =
        .error noVariantMessage ↔
      ∀ c ∈ decoderCases,
        c (.obj [("type", .str "Sequence"), ("prepend_scheme", .str "always")]) = none) :=
  advisory_discriminant_c7
    (.obj [("type", .str "Sequence"), ("prepend_scheme", .str "always")])
    "Sequence" rfl
    (by
      have hts : typeIs (Json.obj [("type", Json.str "Sequence"),
          ("prepend_scheme", Json.str "always")]) "Sequence" = true := rfl
      show (trySequence _).map _ = none
      rw [trySequence_obj_pos hts, scanDecoders_cons_miss (by decide),
        scanDecoders_cons_miss (by decide), scanDecoders_nil]
      rfl)

/-- C8: An object lacking the `"type"` discriminant is never accepted by the
no-parameter cases `Fuse` and `ByteFallback` — nor, indeed, by any case at
all — even if it is otherwise empty or supplies only unrelated fields. -/
theorem discriminant_mandatory_c8 (j : Json)
    (h : lookupField (fieldsOf j) "type" = none) :
    tryFuse j = none ∧ tryByteFallback j = none ∧ deserializeCase j = none :=
  ⟨tryFuse_none (typeIs_false_of_no_type h),
   tryByteFallback_none (typeIs_false_of_no_type h),
   deserializeCase_none_of_no_type h⟩

/-- Witness for C8: both the empty object and an object with only unrelated
fields lack the discriminant and match no case. -/
theorem discriminant_mandatory_c8_witness :
    (tryFuse (.obj []) = none ∧ tryByteFallback (.obj []) = none ∧
      deserializeCase (.obj []) = none) ∧
    (tryFuse (.obj [("unrelated", .num 3)]) = none ∧
      tryByteFallback (.obj [("unrelated", .num 3)]) = none ∧
      deserializeCase (.obj [("unrelated", .num 3)]) = none) :=
  ⟨discriminant_mandatory_c8 (.obj []) rfl,
   discriminant_mandatory_c8 (.obj [("unrelated", .num 3)]) rfl⟩

/-- C2: A `Metaspace` configuration written in the known legacy schema (with
the legacy `add_prefix_space` flag and no `split` field) deserializes
successfully and re-serializes to the current canonical layout, with `split`
populated by its default `true` and the legacy field dropped; in particular
the spec's example object migrates exactly as stated. -/
theorem legacy_metaspace_roundtrip_c2 :
    (∀ r s, (deserialize (legacyMetaspaceJson r s)).map DecoderWrapper.serialize =
      .ok (canonicalMetaspaceJson r s)) ∧
    (deserialize (.obj [("type", .str "Metaspace"), ("replacement", .str "▁"),
        ("add_prefix_space", .bool true),
        ("prepend_scheme", .str "always")])).map DecoderWrapper.serialize =
      .ok (.obj [("type", .str "Metaspace"), ("replacement", .str "▁"),
        ("prepend_scheme", .str "always"), ("split", .bool true)]) := by
  have hgen : ∀ r s,
      (deserialize (legacyMetaspaceJson r s)).map DecoderWrapper.serialize =
        .ok (canonicalMetaspaceJson r s) := by
    intro r s
    have h : typeIs (legacyMetaspaceJson r s) "Metaspace" = true := by
      simp [legacyMetaspaceJson, typeIs, lookupField]
    have hm : tryMetaspace (legacyMetaspaceJson r s) = some ⟨r, s, true⟩ := by
      simp [legacyMetaspaceJson, tryMetaspace, typeIs, lookupField, fieldsOf]
    unfold deserialize
    rw [deserializeCase_typeIs_Metaspace h, hm]
    have hser : DecoderWrapper.serialize (.Metaspace ⟨r, s, true⟩) =
        canonicalMetaspaceJson r s := by
      rw [DecoderWrapper.serialize]
      simp [Metaspace.serialize, canonicalMetaspaceJson]
    simp [Except.map, hser]
  exact ⟨hgen, hgen "▁" "always"⟩

/-- C6: For every supported case, serializing then deserializing is the
identity on canonical-form objects: any object that is the serialization of
a well-formed decoder value deserializes successfully to a value that
re-serializes to the very same object. -/
theorem canonical_roundtrip_c6 (x : Json)
    (h : ∃ w, wellFormed w = true ∧ DecoderWrapper.serialize w = x) :
    ∃ w2, deserialize x = .ok w2 ∧ DecoderWrapper.serialize w2 = x := by
  obtain ⟨w, hwf, hser⟩ := h
  exact ⟨w, hser ▸ deserialize_serialize w hwf, hser⟩

/-- Witness for C6: the canonical object of the
`decoder_serialization_other_no_arg` test (a `Sequence` of `Fuse` and a
canonical `Metaspace`) round-trips. -/
theorem canonical_roundtrip_c6_witness :
    ∃ w2,
      deserialize (.obj [("type", .str "Sequence"), ("decoders", .arr
        [.obj [("type", .str "Fuse")],
         .obj [("type", .str "Metaspace"), ("replacement", .str "▁"),
               ("prepend_scheme", .str "always"), ("split", .bool true)]])]) =
        .ok w2 ∧
      DecoderWrapper.serialize w2 =
        .obj [("type", .str "Sequence"), ("decoders", .arr
          [.obj [("type", .str "Fuse")],
           .obj [("type", .str "Metaspace"), ("replacement", .str "▁"),
                 ("prepend_scheme", .str "always"), ("split", .bool true)]])] :=
  canonical_roundtrip_c6 _
    ⟨.Sequence (.mk [.Fuse ⟨⟩, .Metaspace ⟨"▁", "always", true⟩]),
     by
       rw [wellFormed, wellFormedSeq, wellFormedItems, wellFormed,
         wellFormedItems, wellFormed, wellFormedItems]
       rfl,
     by
       rw [serialize_sequence_mk, serializeItems_cons, serializeItems_cons,
         serializeItems_nil, DecoderWrapper.serialize, DecoderWrapper.serialize]
       rfl⟩

/-- C4: `decode_chain` on a `DecoderWrapper` holding a concrete strategy
forwards the call verbatim to that strategy's own `decode_chain`, for every
choice of external strategy semantics, every held strategy value, and every
token sequence — no pre- or post-processing, no added failure mode, and any
error of the strategy is returned unchanged. -/
theorem dispatch_passthrough_c4 (L : LeafDecoders) :
    (∀ d tokens, DecoderWrapper.decode_chain L (.BPE d) tokens = L.bpe d tokens) ∧
    (∀ d tokens, DecoderWrapper.decode_chain L (.ByteLevel d) tokens = L.byteLevel d tokens) ∧
    (∀ d tokens, DecoderWrapper.decode_chain L (.WordPiece d) tokens = L.wordPiece d tokens) ∧
    (∀ d tokens, DecoderWrapper.decode_chain L (.Metaspace d) tokens = L.metaspace d tokens) ∧
    (∀ d tokens, DecoderWrapper.decode_chain L (.CTC d) tokens = L.ctc d tokens) ∧
    (∀ s tokens, DecoderWrapper.decode_chain L (.Sequence s) tokens = Sequence.decode_chain L s tokens) ∧
    (∀ d tokens, DecoderWrapper.decode_chain L (.Replace d) tokens = L.replace d tokens) ∧
    (∀ d tokens, DecoderWrapper.decode_chain L (.Fuse d) tokens = L.fuse d tokens) ∧
    (∀ d tokens, DecoderWrapper.decode_chain L (.Strip d) tokens = L.strip d tokens) ∧
    (∀ d tokens, DecoderWrapper.decode_chain L (.ByteFallback d) tokens = L.byteFallback d tokens) := by
  refine ⟨?_, ?_, ?_, ?_, ?_, ?_, ?_, ?_, ?_, ?_⟩ <;> intro d tokens <;>
    rw [DecoderWrapper.decode_chain]

/-- C5: The composite `Sequence` case applies its decoders in declaration
order, piping each step's output into the next (equivalently, a monadic left
fold over the list in the `Except` monad): the empty sequence returns its
input unchanged, and a failing step aborts the whole chain with exactly that
step's error, returning no partial output. -/
theorem sequence_pipeline_c5 (L : LeafDecoders) :
    (∀ tokens, Sequence.decode_chain L (.mk []) tokens = .ok tokens) ∧
    (∀ ds tokens, Sequence.decode_chain L (.mk ds) tokens =
      List.foldlM (fun acc d => DecoderWrapper.decode_chain L d acc) tokens ds) ∧
    (∀ d rest tokens e, DecoderWrapper.decode_chain L d tokens = .error e →
      Sequence.decode_chain L (.mk (d :: rest)) tokens = .error e) := by
  refine ⟨?_, ?_, ?_⟩
  · intro tokens
    rw [sequence_decode_chain_eq, chainItems_nil]
  · intro ds tokens
    rw [sequence_decode_chain_eq, chainItems_eq_foldlM]
  · intro d rest tokens e h
    rw [sequence_decode_chain_eq, chainItems_cons, h]

/-- Witness for C5: under semantics where `BPE` fails with `"bpe failed"`, a
chain starting with a `BPE` decoder fails with exactly that error. -/
theorem sequence_pipeline_c5_witness :
    Sequence.decode_chain failingBPESemantics
      (.mk [.BPE ⟨[]⟩, .Fuse ⟨⟩]) ["hello"] = .error "bpe failed" :=
  (sequence_pipeline_c5 failingBPESemantics).2.2 (.BPE ⟨[]⟩) [.Fuse ⟨⟩]
    ["hello"] "bpe failed"
    (by
      rw [DecoderWrapper.decode_chain]
      rfl)

/-- C9: Each of the ten concrete strategy types lifts into `DecoderWrapper`
through a total, infallible conversion producing the corresponding case with
the strategy value unchanged (the `impl_enum_from` conversions, in their
declaration order). -/
theorem lift_total_c9 :
    (∀ d, BPEDecoder.toWrapper d = .BPE d) ∧
    (∀ d, ByteLevel.toWrapper d = .ByteLevel d) ∧
    (∀ d, ByteFallback.toWrapper d = .ByteFallback d) ∧
    (∀ d, Fuse.toWrapper d = .Fuse d) ∧
    (∀ d, Strip.toWrapper d = .Strip d) ∧
    (∀ d, Metaspace.toWrapper d = .Metaspace d) ∧
    (∀ d, WordPiece.toWrapper d = .WordPiece d) ∧
    (∀ d, CTC.toWrapper d = .CTC d) ∧
    (∀ d, Sequence.toWrapper d = .Sequence d) ∧
    (∀ d, Replace.toWrapper d = .Replace d) :=
  ⟨fun _ => rfl, fun _ => rfl, fun _ => rfl, fun _ => rfl, fun _ => rfl,
   fun _ => rfl, fun _ => rfl, fun _ => rfl, fun _ => rfl, fun _ => rfl⟩

/-- C10: The wrapper enum is serialized untagged: serializing a
`DecoderWrapper` case yields exactly the serialization of the held strategy
value itself, with no extra field, tag or nesting added by the wrapper. -/
theorem untagged_serialize_c10 :
    (∀ d, DecoderWrapper.serialize (.BPE d) = BPEDecoder.serialize d) ∧
    (∀ d, DecoderWrapper.serialize (.ByteLevel d) = ByteLevel.serialize d) ∧
    (∀ d, DecoderWrapper.serialize (.WordPiece d) = WordPiece.serialize d) ∧
    (∀ d, DecoderWrapper.serialize (.Metaspace d) = Metaspace.serialize d) ∧
    (∀ d, DecoderWrapper.serialize (.CTC d) = CTC.serialize d) ∧
    (∀ s, DecoderWrapper.serialize (.Sequence s) = Sequence.serialize s) ∧
    (∀ d, DecoderWrapper.serialize (.Replace d) = Replace.serialize d) ∧
    (∀ d, DecoderWrapper.serialize (.Fuse d) = Fuse.serialize d) ∧
    (∀ d, DecoderWrapper.serialize (.Strip d) = Strip.serialize d) ∧
    (∀ d, DecoderWrapper.serialize (.ByteFallback d) = ByteFallback.serialize d) := by
  refine ⟨?_, ?_, ?_, ?_, ?_, ?_, ?_, ?_, ?_, ?_⟩ <;> intro d <;>
    rw [DecoderWrapper.serialize]

end Tokenizers
